import Mathlib

/-!
Verification development for the battery cell management system
(`streamlit_battery_system.py`). The domain core is the class
`BatteryCellMonitor`: a static chemistry-profile table and pure
calculations (state of charge, status classification, power, batch
processing of cell readings), plus the module-level perturbation tick
used by the simulated live monitoring loop. Numbers are embedded as
rationals; the Python builtin `round` (banker's rounding, round half to
even) is embedded as `pyRound`.
-/

set_option allowUnsafeReducibility true in
attribute [semireducible] Rat.add Rat.mul Rat.sub Rat.inv Rat.ofScientific

/-- Embedding of the Python builtin `round` to an integer: round half to even. -/
def roundHalfEven (x : ℚ) : ℤ :=
  if x - ⌊x⌋ < 1 / 2 then ⌊x⌋
  else if 1 / 2 < x - ⌊x⌋ then ⌊x⌋ + 1
  else if ⌊x⌋ % 2 = 0 then ⌊x⌋ else ⌊x⌋ + 1

/-- Embedding of the Python builtin `round(x, n)`: round to `n` decimal places. -/
def pyRound (x : ℚ) (n : ℕ) : ℚ :=
  (roundHalfEven (x * 10 ^ n) : ℚ) / 10 ^ n

/-- One chemistry profile from `BatteryCellMonitor.__init__`:
nominal/minimum/maximum voltage and a display name. -/
structure CellSpecs where
  nominal_voltage : ℚ
  minimum_voltage : ℚ
  maximum_voltage : ℚ
  name : String
  deriving DecidableEq

/-- The status classification returned by `get_cell_status`:
one of the strings "LOW", "NORMAL", "HIGH". -/
inductive Status where
  | LOW
  | NORMAL
  | HIGH
  deriving DecidableEq

/-- The `self.cell_types` table seeded in `BatteryCellMonitor.__init__`:
dictionary lookup by chemistry identifier, `none` models a `KeyError`. -/
def cell_types (cell_type : String) : Option CellSpecs :=
  if cell_type = "LFP" then
    some { nominal_voltage := 3.2, minimum_voltage := 2.8, maximum_voltage := 3.6,
           name := "Lithium Iron Phosphate" }
  else if cell_type = "NMC" then
    some { nominal_voltage := 3.6, minimum_voltage := 3.2, maximum_voltage := 4.0,
           name := "Nickel Manganese Cobalt" }
  else if cell_type = "LCO" then
    some { nominal_voltage := 3.7, minimum_voltage := 3.0, maximum_voltage := 4.2,
           name := "Lithium Cobalt Oxide" }
  else if cell_type = "LTO" then
    some { nominal_voltage := 2.4, minimum_voltage := 1.5, maximum_voltage := 2.8,
           name := "Lithium Titanate Oxide" }
  else
    none

/-- The four chemistry identifiers present in the table. -/
def knownTypes : List String := ["LFP", "NMC", "LCO", "LTO"]

/-- Body of `calculate_soc` once the specs dictionary lookup has succeeded:
`soc = ((voltage - min) / range) * 100`, then `max(0, min(100, round(soc, 1)))`. -/
def soc_of (voltage : ℚ) (specs : CellSpecs) : ℚ :=
  let range_voltage := specs.maximum_voltage - specs.minimum_voltage
  let soc := ((voltage - specs.minimum_voltage) / range_voltage) * 100
  max 0 (min 100 (pyRound soc 1))

/-- Embedding of `BatteryCellMonitor.calculate_soc`: looks `cell_type` up in
`self.cell_types` (raising on an unknown key, modelled by `none`). -/
def calculate_soc (voltage : ℚ) (cell_type : String) : Option ℚ :=
  (cell_types cell_type).map (soc_of voltage)

/-- Body of `get_cell_status` once the specs lookup has succeeded:
LOW when voltage is at most min times 1.05, else HIGH when voltage is at
least max times 0.95, else NORMAL. -/
def status_of (voltage : ℚ) (specs : CellSpecs) : Status :=
  if voltage ≤ specs.minimum_voltage * 1.05 then .LOW
  else if specs.maximum_voltage * 0.95 ≤ voltage then .HIGH
  else .NORMAL

/-- Embedding of `BatteryCellMonitor.get_cell_status`: looks `cell_type` up in
`self.cell_types` (raising on an unknown key, modelled by `none`). -/
def get_cell_status (voltage : ℚ) (cell_type : String) : Option Status :=
  (cell_types cell_type).map (status_of voltage)

/-- Embedding of `BatteryCellMonitor.generate_random_temperature` with the uniform draw
`u` of `random.random()` (in `[0, 1)`) passed explicitly:
`round(20 + u * 25, 1)`. -/
def generate_random_temperature (u : ℚ) : ℚ :=
  pyRound (20 + u * 25) 1

/-- One entry of the `cells_config` list: chemistry identifier, voltage,
current. -/
structure CellConfig where
  type : String
  voltage : ℚ
  current : ℚ
  deriving DecidableEq

/-- One dictionary appended to `cells_data` by `process_cells_data`. -/
structure CellRecord where
  cell_ID : String
  type : String
  voltage_V : ℚ
  current_A : ℚ
  power_W : ℚ
  temperature_C : ℚ
  soc_pct : ℚ
  status : Status
  specs : CellSpecs
  deriving DecidableEq

/-- The record built for the cell at 1-based position `i` of the loop of
`process_cells_data`, given the specs found for its chemistry;
`us i` is the `random.random()` draw used for its temperature. -/
def recordAt (us : ℕ → ℚ) (i : ℕ) (c : CellConfig) (specs : CellSpecs) : CellRecord :=
  { cell_ID := "Cell_" ++ toString i,
    type := c.type,
    voltage_V := c.voltage,
    current_A := c.current,
    power_W := pyRound (c.voltage * c.current) 2,
    temperature_C := generate_random_temperature (us i),
    soc_pct := soc_of c.voltage specs,
    status := status_of c.voltage specs,
    specs := specs }

/-- The loop of `process_cells_data`, with the 1-based enumeration index
threaded explicitly. An unknown chemistry identifier raises (KeyError on
`self.cell_types`, surfaced by the spec as UnknownChemistry), which
propagates out of the whole call. -/
def processFrom (us : ℕ → ℚ) : ℕ → List CellConfig → Except String (List CellRecord)
  | _, [] => .ok []
  | i, c :: rest =>
    match cell_types c.type with
    | none => .error "UnknownChemistry"
    | some specs =>
      match processFrom us (i + 1) rest with
      | .error e => .error e
      | .ok recs => .ok (recordAt us i c specs :: recs)

/-- Embedding of `BatteryCellMonitor.process_cells_data`: enumeration starts at 1. -/
def process_cells_data (us : ℕ → ℚ) (cells_config : List CellConfig) :
    Except String (List CellRecord) :=
  processFrom us 1 cells_config

/-- State-passing embedding of `process_cells_data` for frame properties:
the loop body only reads `self.cell_types` and the fields of each config
entry and appends to a fresh local list, so the table and the config list
are threaded through each iteration and returned. -/
def processFromSt (tbl : String → Option CellSpecs) (us : ℕ → ℚ) :
    ℕ → List CellConfig →
    Except String (List CellRecord × (String → Option CellSpecs) × List CellConfig)
  | _, [] => .ok ([], tbl, [])
  | i, c :: rest =>
    match tbl c.type with
    | none => .error "UnknownChemistry"
    | some specs =>
      match processFromSt tbl us (i + 1) rest with
      | .error e => .error e
      | .ok (recs, tbl2, rest2) =>
        .ok (recordAt us i c specs :: recs, tbl2, c :: rest2)

/-- The perturbation step of the simulated live tick (module level, lines
259-267): `new_voltage = max(0, voltage + dv)`, `new_current = max(0,
current + di)`, stored back as `round(new_voltage, 2)` and
`round(new_current, 2)`. -/
def perturbTick (voltage current dv di : ℚ) : ℚ × ℚ :=
  (pyRound (max 0 (voltage + dv)) 2, pyRound (max 0 (current + di)) 2)

/-- A result record with its synthetic temperature erased, for stating
determinism of `process_cells_data` up to the random temperature. -/
def eraseTemp (r : CellRecord) : CellRecord :=
  { r with temperature_C := 0 }

/-- The state-of-charge formula as the specification words it:
`(voltage - min_voltage) / (max_voltage - min_voltage) * 100`. -/
def rawSoc (voltage : ℚ) (s : CellSpecs) : ℚ :=
  (voltage - s.minimum_voltage) / (s.maximum_voltage - s.minimum_voltage) * 100

/-- Clamping to `[0, 100]` as the specification words it. -/
def clampPct (x : ℚ) : ℚ :=
  max 0 (min 100 x)

/-- The LOW branch of `get_cell_status`, characterized. -/
lemma status_of_low_iff (v : ℚ) (s : CellSpecs) :
    status_of v s = .LOW ↔ v ≤ 1.05 * s.minimum_voltage := by
  unfold status_of
  rw [mul_comm (1.05 : ℚ) s.minimum_voltage]
  split_ifs with h1 h2 <;> simp [h1]

/-- The HIGH branch of `get_cell_status`, characterized: the LOW check is
evaluated first, so LOW wins on overlap. -/
lemma status_of_high_iff (v : ℚ) (s : CellSpecs) :
    status_of v s = .HIGH ↔ 0.95 * s.maximum_voltage ≤ v ∧ ¬ v ≤ 1.05 * s.minimum_voltage := by
  unfold status_of
  rw [mul_comm (1.05 : ℚ) s.minimum_voltage, mul_comm (0.95 : ℚ) s.maximum_voltage]
  split_ifs with h1 h2 <;> simp_all

/-- The NORMAL branch of `get_cell_status`, characterized. -/
lemma status_of_normal_iff (v : ℚ) (s : CellSpecs) :
    status_of v s = .NORMAL ↔ ¬ v ≤ 1.05 * s.minimum_voltage ∧ ¬ 0.95 * s.maximum_voltage ≤ v := by
  unfold status_of
  rw [mul_comm (1.05 : ℚ) s.minimum_voltage, mul_comm (0.95 : ℚ) s.maximum_voltage]
  split_ifs with h1 h2 <;> simp_all

/-- The status classification always yields one of the three variants. -/
lemma status_of_cases (v : ℚ) (s : CellSpecs) :
    status_of v s = .LOW ∨ status_of v s = .NORMAL ∨ status_of v s = .HIGH := by
  unfold status_of
  split_ifs <;> simp

/-- On a known chemistry, `get_cell_status` is `status_of` at the found specs. -/
lemma get_cell_status_eq_iff (v : ℚ) (ct : String) (s : CellSpecs)
    (hs : cell_types ct = some s) (st : Status) :
    get_cell_status v ct = some st ↔ status_of v s = st := by
  simp [get_cell_status, hs]

/-- The clamp in `calculate_soc` keeps every result inside `[0, 100]`. -/
lemma soc_of_bounds (v : ℚ) (s : CellSpecs) : 0 ≤ soc_of v s ∧ soc_of v s ≤ 100 := by
  unfold soc_of
  exact ⟨le_max_left 0 _, max_le (by norm_num) (min_le_left 100 _)⟩

/-- The SOC body computes the raw linear formula, rounds it to one
decimal, then clamps. -/
lemma soc_of_eq (v : ℚ) (s : CellSpecs) :
    soc_of v s = clampPct (pyRound (rawSoc v s) 1) := rfl

/-- Rounding preserves non-negativity. -/
lemma roundHalfEven_nonneg {x : ℚ} (h : 0 ≤ x) : 0 ≤ roundHalfEven x := by
  unfold roundHalfEven
  have hf : (0 : ℤ) ≤ ⌊x⌋ := Int.floor_nonneg.mpr h
  split_ifs <;> omega

/-- Rounding to decimal places preserves non-negativity. -/
lemma pyRound_nonneg {x : ℚ} (n : ℕ) (h : 0 ≤ x) : 0 ≤ pyRound x n := by
  unfold pyRound
  apply div_nonneg _ (by positivity)
  exact_mod_cast roundHalfEven_nonneg (mul_nonneg h (by positivity))

/-- A rounded-then-clamped percentage is an integer number of tenths
between 0 and 1000 tenths. -/
lemma clampPct_pyRound_one (x : ℚ) :
    ∃ k : ℤ, 0 ≤ k ∧ k ≤ 1000 ∧ clampPct (pyRound x 1) = (k : ℚ) / 10 := by
  refine ⟨max 0 (min 1000 (roundHalfEven (x * 10))), le_max_left 0 _,
    max_le (by norm_num) (min_le_left 1000 _), ?_⟩
  unfold clampPct pyRound
  have h10 : (0 : ℚ) ≤ 10 := by norm_num
  push_cast [Int.cast_max, Int.cast_min]
  rw [← max_div_div_right h10, ← min_div_div_right h10]
  norm_num

/-- Full characterization of a successful run of the `process_cells_data`
loop: one record per config entry, in order, built by `recordAt` at the
running 1-based index. -/
lemma processFrom_ok (us : ℕ → ℚ) :
    ∀ (cfg : List CellConfig) (i : ℕ),
      (∀ c ∈ cfg, (cell_types c.type).isSome) →
      ∃ recs, processFrom us i cfg = .ok recs ∧ recs.length = cfg.length ∧
        ∀ j (hj : j < cfg.length) (hr : j < recs.length),
          ∃ s, cell_types ((cfg.get ⟨j, hj⟩).type) = some s ∧
            recs.get ⟨j, hr⟩ = recordAt us (i + j) (cfg.get ⟨j, hj⟩) s := by
  intro cfg
  induction cfg with
  | nil =>
    intro i _
    exact ⟨[], rfl, rfl, fun j hj _ => absurd hj (Nat.not_lt_zero j)⟩
  | cons c rest ih =>
    intro i h
    obtain ⟨s, hs⟩ := Option.isSome_iff_exists.mp (h c (List.mem_cons_self c rest))
    obtain ⟨recs, hrecs, hlen, hget⟩ := ih (i + 1) (fun d hd => h d (List.mem_cons_of_mem c hd))
    refine ⟨recordAt us i c s :: recs, ?_, by simp [hlen], ?_⟩
    · simp [processFrom, hs, hrecs]
    · intro j hj hr
      cases j with
      | zero => exact ⟨s, hs, by simp⟩
      | succ j =>
        have hj' : j < rest.length := by simpa using hj
        have hr' : j < recs.length := by simpa using hr
        obtain ⟨s2, hs2, hrec2⟩ := hget j hj' hr'
        refine ⟨s2, by simpa using hs2, ?_⟩
        have hi : i + 1 + j = i + (j + 1) := by omega
        simpa [hi] using hrec2

/-- The loop fails exactly when some config entry names an unknown
chemistry. -/
lemma processFrom_error_iff (us : ℕ → ℚ) :
    ∀ (cfg : List CellConfig) (i : ℕ),
      (∃ e, processFrom us i cfg = .error e) ↔ ∃ c ∈ cfg, cell_types c.type = none := by
  intro cfg
  induction cfg with
  | nil => intro i; simp [processFrom]
  | cons c rest ih =>
    intro i
    rcases hc : cell_types c.type with _ | s
    · simp [processFrom, hc]
    · rcases hr : processFrom us (i + 1) rest with e | recs
      · have : ∃ e, processFrom us (i + 1) rest = .error e := ⟨e, hr⟩
        rw [ih (i + 1)] at this
        obtain ⟨d, hd, hdn⟩ := this
        constructor
        · intro _; exact ⟨d, List.mem_cons_of_mem c hd, hdn⟩
        · intro _; exact ⟨e, by simp [processFrom, hc, hr]⟩
      · constructor
        · intro ⟨e, he⟩
          simp [processFrom, hc, hr] at he
        · intro ⟨d, hd, hdn⟩
          rcases List.mem_cons.mp hd with hd0 | hd1
          · rw [hd0] at hdn
            rw [hdn] at hc
            exact Option.noConfusion hc
          · have : ∃ e, processFrom us (i + 1) rest = .error e :=
              (ih (i + 1)).mpr ⟨d, hd1, hdn⟩
            obtain ⟨e, he⟩ := this
            rw [he] at hr
            exact Except.noConfusion hr

/-- The only error the loop produces is `UnknownChemistry`. -/
lemma processFrom_error_val (us : ℕ → ℚ) :
    ∀ (cfg : List CellConfig) (i : ℕ) (e : String),
      processFrom us i cfg = .error e → e = "UnknownChemistry" := by
  intro cfg
  induction cfg with
  | nil => intro i e he; exact absurd he (by simp [processFrom])
  | cons c rest ih =>
    intro i e he
    rcases hc : cell_types c.type with _ | s
    · simp only [processFrom, hc, Except.error.injEq] at he
      exact he.symm
    · rcases hr : processFrom us (i + 1) rest with e2 | recs
      · simp only [processFrom, hc, hr, Except.error.injEq] at he
        rw [← he]
        exact ih (i + 1) e2 hr
      · simp [processFrom, hc, hr] at he

/-- The state-passing loop returns the chemistry table and the config list
unchanged, and its records agree with the pure loop. -/
lemma processFromSt_frame (us : ℕ → ℚ) :
    ∀ (cfg : List CellConfig) (i : ℕ) (recs : List CellRecord)
      (tbl2 : String → Option CellSpecs) (cfg2 : List CellConfig),
      processFromSt cell_types us i cfg = .ok (recs, tbl2, cfg2) →
      tbl2 = cell_types ∧ cfg2 = cfg ∧ processFrom us i cfg = .ok recs := by
  intro cfg
  induction cfg with
  | nil =>
    intro i recs tbl2 cfg2 h
    simp only [processFromSt, Except.ok.injEq, Prod.mk.injEq] at h
    obtain ⟨h1, h2, h3⟩ := h
    exact ⟨h2.symm, h3.symm, by rw [← h1]; rfl⟩
  | cons c rest ih =>
    intro i recs tbl2 cfg2 h
    rcases hc : cell_types c.type with _ | s
    · simp [processFromSt, hc] at h
    · rcases hr : processFromSt cell_types us (i + 1) rest with e | trip
      · simp [processFromSt, hc, hr] at h
      · obtain ⟨recs2, tbl3, rest3⟩ := trip
        obtain ⟨ht, hc2, hp⟩ := ih (i + 1) recs2 tbl3 rest3 hr
        simp only [processFromSt, hc, hr, Except.ok.injEq, Prod.mk.injEq] at h
        obtain ⟨h1, h2, h3⟩ := h
        refine ⟨by rw [← h2]; exact ht, by rw [← h3, hc2], ?_⟩
        simp [processFrom, hc, hp, ← h1]

/-- Results of `process_cells_data` do not depend on the random draws
except in the temperature field. -/
lemma processFrom_eraseTemp (us1 us2 : ℕ → ℚ) :
    ∀ (cfg : List CellConfig) (i : ℕ),
      (processFrom us1 i cfg).map (List.map eraseTemp) =
        (processFrom us2 i cfg).map (List.map eraseTemp) := by
  intro cfg
  induction cfg with
  | nil => intro i; rfl
  | cons c rest ih =>
    intro i
    rcases hc : cell_types c.type with _ | s
    · simp [processFrom, hc]
    · have ihs := ih (i + 1)
      rcases h1 : processFrom us1 (i + 1) rest with e1 | recs1 <;>
        rcases h2 : processFrom us2 (i + 1) rest with e2 | recs2 <;>
          rw [h1, h2] at ihs <;> simp [Except.map] at ihs <;>
            simp [processFrom, hc, h1, h2, Except.map, ihs]
      exact rfl

instance : DecidableEq (Except String (List CellRecord)) := fun a b =>
  match a, b with
  | .error x, .error y => decidable_of_iff (x = y) (by simp)
  | .error _, .ok _ => .isFalse (fun h => Except.noConfusion h)
  | .ok _, .error _ => .isFalse (fun h => Except.noConfusion h)
  | .ok x, .ok y => decidable_of_iff (x = y) (by simp)

/-- On a known chemistry, `calculate_soc` returns the raw formula rounded
to one decimal and clamped, and every returned value lies in `[0, 100]`. -/
lemma calculate_soc_known (ct : String) (s : CellSpecs) (hs : cell_types ct = some s) :
    (∀ v : ℚ, calculate_soc v ct = some (clampPct (pyRound (rawSoc v s) 1))) ∧
    (∀ v x : ℚ, calculate_soc v ct = some x → 0 ≤ x ∧ x ≤ 100) := by
  constructor
  · intro v
    simp [calculate_soc, hs, soc_of_eq]
  · intro v x hx
    simp only [calculate_soc, hs, Option.map_some', Option.some.injEq] at hx
    rw [← hx]
    exact soc_of_bounds v s

/-- On a known chemistry, the three `get_cell_status` classifications are
characterized by the two thresholds, with LOW taking precedence. -/
lemma cell_status_known (v : ℚ) (ct : String) (s : CellSpecs)
    (hs : cell_types ct = some s) :
    (get_cell_status v ct = some .LOW ↔ v ≤ 1.05 * s.minimum_voltage) ∧
    (get_cell_status v ct = some .HIGH ↔
      0.95 * s.maximum_voltage ≤ v ∧ ¬ v ≤ 1.05 * s.minimum_voltage) ∧
    (get_cell_status v ct = some .NORMAL ↔
      ¬ v ≤ 1.05 * s.minimum_voltage ∧ ¬ 0.95 * s.maximum_voltage ≤ v) ∧
    (get_cell_status v ct = some .LOW ∨ get_cell_status v ct = some .NORMAL ∨
      get_cell_status v ct = some .HIGH) := by
  refine ⟨?_, ?_, ?_, ?_⟩
  · rw [get_cell_status_eq_iff v ct s hs]
    exact status_of_low_iff v s
  · rw [get_cell_status_eq_iff v ct s hs]
    exact status_of_high_iff v s
  · rw [get_cell_status_eq_iff v ct s hs]
    exact status_of_normal_iff v s
  · rcases status_of_cases v s with hc | hc | hc
    · exact Or.inl ((get_cell_status_eq_iff v ct s hs .LOW).mpr hc)
    · exact Or.inr (Or.inl ((get_cell_status_eq_iff v ct s hs .NORMAL).mpr hc))
    · exact Or.inr (Or.inr ((get_cell_status_eq_iff v ct s hs .HIGH).mpr hc))

/-- On a known chemistry, `calculate_soc` rounds before clamping and the
result is a whole number of tenths of a percent between 0 and 100. -/
lemma soc_rounds_known (ct : String) (s : CellSpecs) (hs : cell_types ct = some s)
    (v : ℚ) :
    calculate_soc v ct = some (clampPct (pyRound (rawSoc v s) 1)) ∧
    ∃ k : ℤ, 0 ≤ k ∧ k ≤ 1000 ∧ calculate_soc v ct = some ((k : ℚ) / 10) := by
  have h1 := (calculate_soc_known ct s hs).1 v
  obtain ⟨k, hk0, hk1, hk⟩ := clampPct_pyRound_one (rawSoc v s)
  exact ⟨h1, k, hk0, hk1, by rw [h1, hk]⟩

/-- C1 (counterexample): the spec formula "raw SOC clamped to [0, 100]"
does not match `calculate_soc` at LFP voltage 2.801, because the code
rounds to one decimal before clamping: the code yields 0.1 while the
unrounded clamped formula yields 0.125. -/
theorem soc_unrounded_formula_fails :
    calculate_soc 2.801 "LFP" ≠
      (cell_types "LFP").map (fun s => clampPct (rawSoc 2.801 s)) := by
  decide

/-- Every known chemistry identifier has specs in the table, with a
strictly positive voltage range. -/
lemma knownTypes_some (ct : String) (h : ct ∈ knownTypes) :
    ∃ s, cell_types ct = some s ∧ s.minimum_voltage < s.maximum_voltage := by
  simp only [knownTypes] at h
  fin_cases h <;> exact ⟨_, rfl, by decide⟩

/-- Rounding zero gives zero. -/
lemma pyRound_zero (n : ℕ) : pyRound 0 n = 0 := by
  simp [pyRound, roundHalfEven]

/-- At the profile minimum voltage the state of charge is 0. -/
lemma soc_of_min (s : CellSpecs) : soc_of s.minimum_voltage s = 0 := by
  have hraw : rawSoc s.minimum_voltage s = 0 := by
    unfold rawSoc
    rw [sub_self, zero_div, zero_mul]
  rw [soc_of_eq, hraw, pyRound_zero]
  decide

/-- At the profile maximum voltage the state of charge is 100, provided
the voltage range is nondegenerate. -/
lemma soc_of_max (s : CellSpecs) (hlt : s.minimum_voltage < s.maximum_voltage) :
    soc_of s.maximum_voltage s = 100 := by
  have hne : s.maximum_voltage - s.minimum_voltage ≠ 0 := sub_ne_zero.mpr (ne_of_gt hlt)
  have hraw : rawSoc s.maximum_voltage s = 100 := by
    unfold rawSoc
    rw [div_self hne, one_mul]
  have h100 : pyRound 100 1 = 100 := by decide
  rw [soc_of_eq, hraw, h100]
  decide

/-- C1 (amended): for every known chemistry, `calculate_soc` is the raw
linear formula rounded to one decimal place and then clamped to
`[0, 100]` inclusive; out-of-band voltages saturate (every result lies in
`[0, 100]`), and the value is 0 at the profile minimum voltage and 100 at
the profile maximum voltage. -/
theorem soc_clamped_rounded_formula (ct : String) (h : ct ∈ knownTypes) :
    ∃ s, cell_types ct = some s ∧
      (∀ v : ℚ, calculate_soc v ct = some (clampPct (pyRound (rawSoc v s) 1))) ∧
      (∀ v x : ℚ, calculate_soc v ct = some x → 0 ≤ x ∧ x ≤ 100) ∧
      calculate_soc s.minimum_voltage ct = some 0 ∧
      calculate_soc s.maximum_voltage ct = some 100 := by
  obtain ⟨s, hs, hlt⟩ := knownTypes_some ct h
  refine ⟨s, hs, (calculate_soc_known ct s hs).1, (calculate_soc_known ct s hs).2, ?_, ?_⟩
  · simp [calculate_soc, hs, soc_of_min s]
  · simp [calculate_soc, hs, soc_of_max s hlt]

/-- Witness for C1 at the LFP profile. -/
theorem soc_clamped_rounded_formula_witness :
    "LFP" ∈ knownTypes ∧
    ∃ s, cell_types "LFP" = some s ∧
      (∀ v : ℚ, calculate_soc v "LFP" = some (clampPct (pyRound (rawSoc v s) 1))) ∧
      (∀ v x : ℚ, calculate_soc v "LFP" = some x → 0 ≤ x ∧ x ≤ 100) ∧
      calculate_soc s.minimum_voltage "LFP" = some 0 ∧
      calculate_soc s.maximum_voltage "LFP" = some 100 :=
  ⟨by decide, soc_clamped_rounded_formula "LFP" (by decide)⟩

/-- C2: for every known chemistry and every voltage, the classification is
LOW iff voltage is at most 1.05 times the minimum voltage; HIGH iff the
voltage is at least 0.95 times the maximum voltage and is not LOW (the LOW
check wins on overlap); NORMAL otherwise; and the result is always one of
the three classifications. Holds at the exact boundary values since the
first two conjuncts are equivalences over all rational voltages. -/
theorem cell_status_thresholds (ct : String) (h : ct ∈ knownTypes) (v : ℚ) :
    ∃ s, cell_types ct = some s ∧
      (get_cell_status v ct = some .LOW ↔ v ≤ 1.05 * s.minimum_voltage) ∧
      (get_cell_status v ct = some .HIGH ↔
        0.95 * s.maximum_voltage ≤ v ∧ ¬ v ≤ 1.05 * s.minimum_voltage) ∧
      (get_cell_status v ct = some .NORMAL ↔
        ¬ v ≤ 1.05 * s.minimum_voltage ∧ ¬ 0.95 * s.maximum_voltage ≤ v) ∧
      (get_cell_status v ct = some .LOW ∨ get_cell_status v ct = some .NORMAL ∨
        get_cell_status v ct = some .HIGH) := by
  obtain ⟨s, hs, _⟩ := knownTypes_some ct h
  exact ⟨s, hs, cell_status_known v ct s hs⟩

/-- Witness for C2 at the LFP profile and the exact LOW boundary voltage
2.94 = 1.05 times 2.8. -/
theorem cell_status_thresholds_witness :
    "LFP" ∈ knownTypes ∧
    ∃ s, cell_types "LFP" = some s ∧
      (get_cell_status 2.94 "LFP" = some .LOW ↔ (2.94 : ℚ) ≤ 1.05 * s.minimum_voltage) ∧
      (get_cell_status 2.94 "LFP" = some .HIGH ↔
        0.95 * s.maximum_voltage ≤ 2.94 ∧ ¬ (2.94 : ℚ) ≤ 1.05 * s.minimum_voltage) ∧
      (get_cell_status 2.94 "LFP" = some .NORMAL ↔
        ¬ (2.94 : ℚ) ≤ 1.05 * s.minimum_voltage ∧ ¬ 0.95 * s.maximum_voltage ≤ 2.94) ∧
      (get_cell_status 2.94 "LFP" = some .LOW ∨ get_cell_status 2.94 "LFP" = some .NORMAL ∨
        get_cell_status 2.94 "LFP" = some .HIGH) :=
  ⟨by decide, cell_status_thresholds "LFP" (by decide) 2.94⟩

/-- C3: batch evaluation returns one record per reading, in input order,
with 1-based sequential identifiers Cell_1..Cell_N regardless of the
chemistry mix, and the empty sequence maps to the empty sequence. -/
theorem process_cells_order_and_ids :
    (∀ us : ℕ → ℚ, process_cells_data us [] = .ok []) ∧
    (∀ (us : ℕ → ℚ) (cfg : List CellConfig),
      (∀ c ∈ cfg, (cell_types c.type).isSome) →
      ∃ recs, process_cells_data us cfg = .ok recs ∧ recs.length = cfg.length ∧
        ∀ j (hj : j < cfg.length) (hr : j < recs.length),
          (recs.get ⟨j, hr⟩).cell_ID = "Cell_" ++ toString (j + 1) ∧
          (recs.get ⟨j, hr⟩).type = (cfg.get ⟨j, hj⟩).type ∧
          (recs.get ⟨j, hr⟩).voltage_V = (cfg.get ⟨j, hj⟩).voltage ∧
          (recs.get ⟨j, hr⟩).current_A = (cfg.get ⟨j, hj⟩).current) := by
  constructor
  · intro us
    rfl
  · intro us cfg h
    obtain ⟨recs, hok, hlen, hget⟩ := processFrom_ok us cfg 1 h
    refine ⟨recs, hok, hlen, ?_⟩
    intro j hj hr
    obtain ⟨s, _, hrec⟩ := hget j hj hr
    rw [hrec]
    exact ⟨by simp [recordAt, Nat.add_comm 1 j], rfl, rfl, rfl⟩

/-- Witness for C3 on a two-reading mixed-chemistry batch and the empty
batch. -/
theorem process_cells_order_and_ids_witness :
    process_cells_data (fun _ => 0) [] = .ok [] ∧
    (∃ recs, process_cells_data (fun _ => 0) [⟨"LFP", 3.2, 1.0⟩, ⟨"NMC", 3.6, 1.0⟩] = .ok recs ∧
      recs.length = ([⟨"LFP", 3.2, 1.0⟩, ⟨"NMC", 3.6, 1.0⟩] : List CellConfig).length ∧
      ∀ j (hj : j < ([⟨"LFP", 3.2, 1.0⟩, ⟨"NMC", 3.6, 1.0⟩] : List CellConfig).length)
        (hr : j < recs.length),
        (recs.get ⟨j, hr⟩).cell_ID = "Cell_" ++ toString (j + 1) ∧
        (recs.get ⟨j, hr⟩).type =
          (([⟨"LFP", 3.2, 1.0⟩, ⟨"NMC", 3.6, 1.0⟩] : List CellConfig).get ⟨j, hj⟩).type ∧
        (recs.get ⟨j, hr⟩).voltage_V =
          (([⟨"LFP", 3.2, 1.0⟩, ⟨"NMC", 3.6, 1.0⟩] : List CellConfig).get ⟨j, hj⟩).voltage ∧
        (recs.get ⟨j, hr⟩).current_A =
          (([⟨"LFP", 3.2, 1.0⟩, ⟨"NMC", 3.6, 1.0⟩] : List CellConfig).get ⟨j, hj⟩).current) :=
  ⟨process_cells_order_and_ids.1 (fun _ => 0),
   process_cells_order_and_ids.2 (fun _ => 0) [⟨"LFP", 3.2, 1.0⟩, ⟨"NMC", 3.6, 1.0⟩]
     (by decide)⟩

/-- C4: batch evaluation fails exactly when some reading names a chemistry
identifier outside the profile table, the only error is UnknownChemistry
(surfaced, never defaulted), and the reading XYZ/3.0/1.0 raises it. -/
theorem process_cells_unknown_chemistry :
    (∀ (us : ℕ → ℚ) (cfg : List CellConfig),
      ((∃ e, process_cells_data us cfg = .error e) ↔ ∃ c ∈ cfg, cell_types c.type = none) ∧
      ∀ e, process_cells_data us cfg = .error e → e = "UnknownChemistry") ∧
    (∀ us : ℕ → ℚ, process_cells_data us [⟨"XYZ", 3.0, 1.0⟩] = .error "UnknownChemistry") := by
  constructor
  · intro us cfg
    exact ⟨processFrom_error_iff us cfg 1, fun e he => processFrom_error_val us cfg 1 e he⟩
  · intro us
    rfl

/-- Witness for C4 at the XYZ reading from the specification. -/
theorem process_cells_unknown_chemistry_witness :
    ((∃ e, process_cells_data (fun _ => 0) [⟨"XYZ", 3.0, 1.0⟩] = .error e) ↔
      ∃ c ∈ ([⟨"XYZ", 3.0, 1.0⟩] : List CellConfig), cell_types c.type = none) ∧
    "UnknownChemistry" = "UnknownChemistry" :=
  ⟨(process_cells_unknown_chemistry.1 (fun _ => 0) [⟨"XYZ", 3.0, 1.0⟩]).1,
   (process_cells_unknown_chemistry.1 (fun _ => 0) [⟨"XYZ", 3.0, 1.0⟩]).2 "UnknownChemistry"
     (process_cells_unknown_chemistry.2 (fun _ => 0))⟩

/-- C5: each result record reports power = round(voltage * current, 2);
round(3.2 * 1.0, 2) = 3.2; and the end-to-end LFP reading 2.8 V / 1.0 A
yields Power_W = 2.8. -/
theorem process_cells_power :
    (∀ (us : ℕ → ℚ) (cfg : List CellConfig),
      (∀ c ∈ cfg, (cell_types c.type).isSome) →
      ∃ recs, process_cells_data us cfg = .ok recs ∧ recs.length = cfg.length ∧
        ∀ j (hj : j < cfg.length) (hr : j < recs.length),
          (recs.get ⟨j, hr⟩).power_W =
            pyRound ((cfg.get ⟨j, hj⟩).voltage * (cfg.get ⟨j, hj⟩).current) 2) ∧
    pyRound (3.2 * 1.0) 2 = 3.2 ∧
    (∀ us : ℕ → ℚ, ∃ recs, process_cells_data us [⟨"LFP", 2.8, 1.0⟩] = .ok recs ∧
      recs.map CellRecord.power_W = [2.8]) := by
  refine ⟨?_, by decide, ?_⟩
  · intro us cfg h
    obtain ⟨recs, hok, hlen, hget⟩ := processFrom_ok us cfg 1 h
    refine ⟨recs, hok, hlen, fun j hj hr => ?_⟩
    obtain ⟨s, _, hrec⟩ := hget j hj hr
    rw [hrec]
    rfl
  · intro us
    refine ⟨[recordAt us 1 ⟨"LFP", 2.8, 1.0⟩
      ⟨3.2, 2.8, 3.6, "Lithium Iron Phosphate"⟩], rfl, ?_⟩
    show [pyRound (2.8 * 1.0) 2] = [2.8]
    decide

/-- Witness for C5 at the LFP reading 2.8 V / 1.0 A. -/
theorem process_cells_power_witness :
    (∃ recs, process_cells_data (fun _ => 0) [⟨"LFP", 2.8, 1.0⟩] = .ok recs ∧
      recs.length = ([⟨"LFP", 2.8, 1.0⟩] : List CellConfig).length ∧
      ∀ j (hj : j < ([⟨"LFP", 2.8, 1.0⟩] : List CellConfig).length) (hr : j < recs.length),
        (recs.get ⟨j, hr⟩).power_W =
          pyRound ((([⟨"LFP", 2.8, 1.0⟩] : List CellConfig).get ⟨j, hj⟩).voltage *
            (([⟨"LFP", 2.8, 1.0⟩] : List CellConfig).get ⟨j, hj⟩).current) 2) ∧
    pyRound (3.2 * 1.0) 2 = 3.2 :=
  ⟨process_cells_power.1 (fun _ => 0) [⟨"LFP", 2.8, 1.0⟩] (by decide),
   process_cells_power.2.1⟩

/-- C6 (counterexample): batch evaluation is not deterministic on equal
inputs, because each record embeds a synthetic temperature drawn from the
shared random source: the same single-reading batch evaluated under two
different random draws yields different outputs. -/
theorem process_cells_rng_dependence :
    process_cells_data (fun _ => 0) [⟨"LFP", 3.2, 1.0⟩] ≠
      process_cells_data (fun _ => 1 / 2) [⟨"LFP", 3.2, 1.0⟩] := by
  decide

/-- C6 (amended): state of charge, status classification and power are
pure functions of their arguments, and batch evaluation is deterministic
in every field except the synthetic temperature: its results are equal
after erasing the temperature field, whatever the random draws. -/
theorem process_cells_deterministic_up_to_temperature :
    ∀ (us1 us2 : ℕ → ℚ) (cfg : List CellConfig),
      (process_cells_data us1 cfg).map (List.map eraseTemp) =
        (process_cells_data us2 cfg).map (List.map eraseTemp) :=
  fun us1 us2 cfg => processFrom_eraseTemp us1 us2 cfg 1

/-- C7: batch evaluation leaves the chemistry table and the whole input
reading list (identifiers, voltages, currents) unchanged, and returns the
same fresh records as the pure embedding. -/
theorem process_cells_frame (us : ℕ → ℚ) (cfg : List CellConfig)
    (recs : List CellRecord) (tbl2 : String → Option CellSpecs) (cfg2 : List CellConfig)
    (h : processFromSt cell_types us 1 cfg = .ok (recs, tbl2, cfg2)) :
    tbl2 = cell_types ∧ cfg2 = cfg ∧ process_cells_data us cfg = .ok recs :=
  processFromSt_frame us cfg 1 recs tbl2 cfg2 h

/-- Witness for C7 on a one-reading batch. -/
theorem process_cells_frame_witness :
    cell_types = cell_types ∧
    ([⟨"LFP", 3.2, 1.0⟩] : List CellConfig) = [⟨"LFP", 3.2, 1.0⟩] ∧
    process_cells_data (fun _ => 0) [⟨"LFP", 3.2, 1.0⟩] =
      .ok [recordAt (fun _ => 0) 1 ⟨"LFP", 3.2, 1.0⟩
        ⟨3.2, 2.8, 3.6, "Lithium Iron Phosphate"⟩] :=
  process_cells_frame (fun _ => 0) [⟨"LFP", 3.2, 1.0⟩]
    [recordAt (fun _ => 0) 1 ⟨"LFP", 3.2, 1.0⟩ ⟨3.2, 2.8, 3.6, "Lithium Iron Phosphate"⟩]
    cell_types [⟨"LFP", 3.2, 1.0⟩] rfl

/-- C8 (counterexample): the perturbation step does not store voltage + dv
floored at 0: it additionally rounds to 2 decimal places, so with voltage
3.2 and in-range draw dv = 0.001 the stored voltage is 3.2, not 3.201. -/
theorem perturb_tick_unrounded_fails :
    ((-0.05 : ℚ) ≤ 0.001 ∧ (0.001 : ℚ) ≤ 0.05 ∧ (-0.1 : ℚ) ≤ 0 ∧ (0 : ℚ) ≤ 0.1) ∧
    perturbTick 3.2 1.0 0.001 0 ≠ (max 0 (3.2 + 0.001), max 0 (1.0 + 0)) := by
  decide

/-- C8 (amended): one perturbation step stores round(max(0, voltage + dv),
2) and round(max(0, current + di), 2); in particular both stored values
are always non-negative. -/
theorem perturb_tick_rounded_nonneg (v i dv di : ℚ)
    (h1 : -0.05 ≤ dv) (h2 : dv ≤ 0.05) (h3 : -0.1 ≤ di) (h4 : di ≤ 0.1) :
    perturbTick v i dv di = (pyRound (max 0 (v + dv)) 2, pyRound (max 0 (i + di)) 2) ∧
    0 ≤ (perturbTick v i dv di).1 ∧ 0 ≤ (perturbTick v i dv di).2 :=
  ⟨rfl, pyRound_nonneg 2 (le_max_left 0 (v + dv)), pyRound_nonneg 2 (le_max_left 0 (i + di))⟩

/-- Witness for C8 at voltage 3.2, current 1.0, draws 0.001 and 0. -/
theorem perturb_tick_rounded_nonneg_witness :
    (-0.05 : ℚ) ≤ 0.001 ∧ (0.001 : ℚ) ≤ 0.05 ∧ (-0.1 : ℚ) ≤ 0 ∧ (0 : ℚ) ≤ 0.1 ∧
    (perturbTick 3.2 1.0 0.001 0 =
        (pyRound (max 0 (3.2 + 0.001)) 2, pyRound (max 0 (1.0 + 0)) 2) ∧
      0 ≤ (perturbTick 3.2 1.0 0.001 0).1 ∧ 0 ≤ (perturbTick 3.2 1.0 0.001 0).2) :=
  ⟨by decide, by decide, by decide, by decide,
   perturb_tick_rounded_nonneg 3.2 1.0 0.001 0 (by decide) (by decide) (by decide) (by decide)⟩

/-- C9: all four startup chemistry profiles satisfy minimum_voltage <
nominal_voltage < maximum_voltage, and batch evaluation never changes the
profile table. -/
theorem chemistry_profiles_invariant :
    (∀ ct ∈ knownTypes, ∃ s, cell_types ct = some s ∧
      s.minimum_voltage < s.nominal_voltage ∧ s.nominal_voltage < s.maximum_voltage) ∧
    (∀ (us : ℕ → ℚ) (cfg : List CellConfig) (recs : List CellRecord)
      (tbl2 : String → Option CellSpecs) (cfg2 : List CellConfig),
      processFromSt cell_types us 1 cfg = .ok (recs, tbl2, cfg2) → tbl2 = cell_types) := by
  constructor
  · intro ct h
    simp only [knownTypes] at h
    fin_cases h <;> exact ⟨_, rfl, by decide, by decide⟩
  · intro us cfg recs tbl2 cfg2 h
    exact (processFromSt_frame us cfg 1 recs tbl2 cfg2 h).1

/-- Witness for C9 at the LFP profile and the empty batch. -/
theorem chemistry_profiles_invariant_witness :
    (∃ s, cell_types "LFP" = some s ∧
      s.minimum_voltage < s.nominal_voltage ∧ s.nominal_voltage < s.maximum_voltage) ∧
    cell_types = cell_types :=
  ⟨chemistry_profiles_invariant.1 "LFP" (by decide),
   chemistry_profiles_invariant.2 (fun _ => 0) [] [] cell_types [] rfl⟩

/-- C10: for every known chemistry and voltage, `calculate_soc` rounds the
raw percentage to one decimal place before clamping to [0, 100], so the
returned value is clamp(round(raw, 1)) and is always a whole number of
tenths of a percent. -/
theorem soc_rounds_before_clamp (ct : String) (h : ct ∈ knownTypes) (v : ℚ) :
    ∃ s, cell_types ct = some s ∧
      calculate_soc v ct = some (clampPct (pyRound (rawSoc v s) 1)) ∧
      ∃ k : ℤ, 0 ≤ k ∧ k ≤ 1000 ∧ calculate_soc v ct = some ((k : ℚ) / 10) := by
  obtain ⟨s, hs, _⟩ := knownTypes_some ct h
  exact ⟨s, hs, soc_rounds_known ct s hs v⟩

/-- Witness for C10 at the LFP profile and voltage 2.801, where the raw
formula yields 0.125 but the code reports 0.1. -/
theorem soc_rounds_before_clamp_witness :
    "LFP" ∈ knownTypes ∧
    ∃ s, cell_types "LFP" = some s ∧
      calculate_soc 2.801 "LFP" = some (clampPct (pyRound (rawSoc 2.801 s) 1)) ∧
      ∃ k : ℤ, 0 ≤ k ∧ k ≤ 1000 ∧ calculate_soc 2.801 "LFP" = some ((k : ℚ) / 10) :=
  ⟨by decide, soc_rounds_before_clamp "LFP" (by decide) 2.801⟩
